import Mathlib

/-!
Verification development for the job orchestrator implemented in
src/extension.ts of this repository.  The TypeScript functions
setupPythonEnvironment and runAgent are shallowly embedded below:

* chunk text is modelled as a list of characters; the JavaScript string
  operations trim and split used by the stdout handler are reproduced
  over that representation;
* the result of JSON.parse is modelled by the inductive type JsValue,
  and the parse itself is a parameter of the stdout handler model, since
  the handler only inspects success, failure, and the parsed shape;
* side effects (progress reports, process spawns, notifications, output
  channel writes) are recorded as an explicit list of actions;
* the close handler of the agent process is the pure function
  classifyOutcome over the exit code (an optional integer, since the
  Node close event delivers null for a signal kill) and the
  cancellation flag.

Platform note: path construction follows the non-Windows branch of the
source (isWindows = false), so joined paths use a forward slash.
-/

/-- Character list representation of a JavaScript string. -/
abbrev Chars := List Char

/-- Conversion from a Lean string literal to the character list model. -/
def str (s : String) : Chars := s.toList

/-- Whitespace characters removed by the JavaScript String.prototype.trim
(the ASCII subset relevant to process output). -/
def jsIsWs (c : Char) : Bool :=
  c = ' ' || c = '\t' || c = '\n' || c = '\r' || c = '\x0b' || c = '\x0c'

/-- Model of output.trim(): strip leading and trailing whitespace. -/
def jsTrim (s : Chars) : Chars :=
  (((s.dropWhile jsIsWs).reverse).dropWhile jsIsWs).reverse

/-- Model of s.split("\n"): split at every newline, keeping empty
segments; the result is never the empty list. -/
def jsSplitNl : Chars → List Chars
  | [] => [[]]
  | c :: rest =>
    if c = '\n' then [] :: jsSplitNl rest
    else
      match jsSplitNl rest with
      | [] => [[c]]
      | l :: ls => (c :: l) :: ls

/-- Values produced by JSON.parse, as far as the stdout handler inspects
them: null, booleans, numbers, strings and objects. -/
inductive JsValue where
  | jnull : JsValue
  | jbool : Bool → JsValue
  | jnum : Int → JsValue
  | jstr : Chars → JsValue
  | jobj : List (Chars × JsValue) → JsValue

/-- Field lookup in a parsed object (the inputs considered here carry no
duplicate keys). -/
def lookupField : List (Chars × JsValue) → Chars → Option JsValue
  | [], _ => none
  | (k, v) :: rest, name => if k = name then some v else lookupField rest name

/-- Model of the JavaScript property access log.type on a parse result:
it throws on null (error case), returns the field (or undefined, here
none) on an object, and returns undefined on other primitives. -/
def getField (v : JsValue) (name : Chars) : Except Unit (Option JsValue) :=
  match v with
  | .jnull => .error ()
  | .jobj fields => .ok (lookupField fields name)
  | _ => .ok none

/-- Field access used once the value is known to be an object. -/
def fieldOf (v : JsValue) (name : Chars) : Option JsValue :=
  match v with
  | .jobj fields => lookupField fields name
  | _ => none

/-- Stringification applied by the template literal building the
friendly progress message. -/
def jsDisplay : Option JsValue → Chars
  | none => str "undefined"
  | some .jnull => str "null"
  | some (.jbool true) => str "true"
  | some (.jbool false) => str "false"
  | some (.jnum n) => (toString n).toList
  | some (.jstr s) => s
  | some (.jobj _) => str "[object Object]"

/-- Progress events delivered to the host progress sink: a structured
phase report from a well formed progress record, or a raw line from the
fallback branch of the stdout handler. -/
inductive ProgressEvent where
  | Phase : Chars → Chars → ProgressEvent
  | Raw : Chars → ProgressEvent
deriving DecidableEq

/-- Outcome of handling one line inside the try block of the stdout
handler: skip (blank line, or a record that is not a progress record),
thrown (JSON.parse failed, or property access on a parsed null threw),
or a phase report. -/
inductive LineStep where
  | skip : LineStep
  | thrown : LineStep
  | phase : Chars → Chars → LineStep
deriving DecidableEq

/-- One iteration of the for loop over the lines of a stdout chunk
(source lines 193 to 200): blank lines are skipped, a line is parsed,
and only a record whose type field is the string progress produces a
phase report; a parse failure or a throwing property access escapes to
the catch. -/
def lineStep (parse : Chars → Option JsValue) (l : Chars) : LineStep :=
  if jsTrim l = [] then .skip
  else
    match parse l with
    | none => .thrown
    | some v =>
      match getField v (str "type") with
      | .error _ => .thrown
      | .ok (some (.jstr s)) =>
        if s = str "progress" then
          .phase (jsDisplay (fieldOf v (str "phase"))) (jsDisplay (fieldOf v (str "message")))
        else .skip
      | .ok _ => .skip

/-- The try block of the stdout handler: the loop over the lines.  It
returns the phase events reported before the loop finished or an
exception escaped, together with the flag telling whether an exception
escaped to the catch. -/
def tryBody (parse : Chars → Option JsValue) : List Chars → List ProgressEvent × Bool
  | [] => ([], false)
  | l :: rest =>
    match lineStep parse l with
    | .skip => tryBody parse rest
    | .thrown => ([], true)
    | .phase p m =>
      let tail := tryBody parse rest
      (ProgressEvent.Phase p m :: tail.1, tail.2)

/-- The catch block of the stdout handler (source lines 202 to 209):
report the popped last element of output.trim().split("\n") when it is
a non empty string. -/
def lastLineEvent (chunk : Chars) : List ProgressEvent :=
  match (jsSplitNl (jsTrim chunk)).getLast? with
  | some l => if l = [] then [] else [ProgressEvent.Raw l]
  | none => []

/-- The whole stdout data handler for one chunk (source lines 186 to
210), with JSON.parse supplied as a parameter: the events reported to
the progress sink, in order.  The handler is a total function: every
exception raised inside the try block is routed to the catch. -/
def processChunk (parse : Chars → Option JsValue) (chunk : Chars) : List ProgressEvent :=
  let r := tryBody parse (jsSplitNl (jsTrim chunk))
  if r.2 then r.1 ++ lastLineEvent chunk else r.1

/-- Number of Phase events in an event list. -/
def countPhase : List ProgressEvent → Nat
  | [] => 0
  | .Phase _ _ :: rest => countPhase rest + 1
  | .Raw _ :: rest => countPhase rest

/-- Number of Raw events in an event list. -/
def countRaw : List ProgressEvent → Nat
  | [] => 0
  | .Phase _ _ :: rest => countRaw rest
  | .Raw _ :: rest => countRaw rest + 1

/-- Reading of the specification sentence naming the last non empty
line of a chunk, written from the wording of the spec for comparison
with the source behaviour: the last element of the chunk split at
newlines that is a non empty string. -/
def lastNonEmptyLine (chunk : Chars) : Option Chars :=
  ((jsSplitNl chunk).filter (fun l => !l.isEmpty)).getLast?

/-- Display of a Node exit code inside a template literal: the number,
or null when the process was killed by a signal. -/
def codeText : Option Int → String
  | none => "null"
  | some n => toString n

/-- The switch statement of the close handler choosing the user facing
failure message (source lines 237 to 254). -/
def failMessage (code : Option Int) : String :=
  if code = some 2 then
    "Agent failed during Phase 1 (Discovery & Strategy). Check the output panel for details."
  else if code = some 3 then
    "Agent failed during Phase 2 (Execution & Refactoring). Check the output panel for details."
  else if code = some 4 then
    "Agent failed during Phase 3 (Documentation & Verification). Check the output panel for details."
  else if code = some 1 then
    "Agent encountered a general error. Check the output panel for details."
  else
    "Agent process failed with unexpected error code " ++ codeText code ++
      ". Check the output panel for details."

/-- Terminal outcome of one invocation, as resolved by the close
handler: the cancellation branch resolves, exit code zero resolves as
success, anything else rejects with the classified message. -/
inductive JobOutcome where
  | Cancelled : JobOutcome
  | Succeeded : JobOutcome
  | Failed : Option Int → String → JobOutcome
deriving DecidableEq

/-- The close handler of the agent process (source lines 218 to 258):
cancellation state is checked first, then the exit code. -/
def classifyOutcome (cancelled : Bool) (code : Option Int) : JobOutcome :=
  if cancelled then JobOutcome.Cancelled
  else if code = some 0 then JobOutcome.Succeeded
  else JobOutcome.Failed code (failMessage code)

/-- External commands spawned by the orchestrator. -/
inductive Cmd where
  | venvCreate : Cmd
  | pipInstall : Cmd
  | agentJob : Cmd
deriving DecidableEq

/-- Observable side effects of one invocation, recorded in order. -/
inductive Act where
  | progressReport : String → Act
  | spawnProcess : Cmd → Act
  | showError : String → Act
  | showInfo : String → Act
  | logLine : String → Act
  | clearLog : Act
deriving DecidableEq

/-- Number of spawns of a given command in an action trace. -/
def spawnCount (c : Cmd) : List Act → Nat
  | [] => 0
  | Act.spawnProcess c' :: rest => (if c' = c then 1 else 0) + spawnCount c rest
  | _ :: rest => spawnCount c rest

/-- Number of user visible error notifications in an action trace. -/
def showErrorCount : List Act → Nat
  | [] => 0
  | Act.showError _ :: rest => showErrorCount rest + 1
  | _ :: rest => showErrorCount rest

/-- Number of output channel lines in an action trace. -/
def logLineCount : List Act → Nat
  | [] => 0
  | Act.logLine _ :: rest => logLineCount rest + 1
  | _ :: rest => logLineCount rest

/-- The stderr data handler (source lines 213 to 216): every chunk is
appended to the log at error level and triggers an error notification. -/
def stderrChunkActions (chunk : String) : List Act :=
  [Act.logLine ("[ERROR] " ++ chunk),
   Act.showError "Agent Error: See the \"AI Agent\" output channel for details."]

/-- Actions produced by a sequence of stderr chunks over one invocation. -/
def stderrActions : List String → List Act
  | [] => []
  | c :: rest => stderrChunkActions c ++ stderrActions rest

/-- Model of JavaScript String.prototype.startsWith over character
lists. -/
def strStarts : Chars → Chars → Bool
  | _, [] => true
  | [], _ :: _ => false
  | c :: s, p :: ps => c = p && strStarts s ps

/-- Substring search over character lists, the model of
String.prototype.includes used by the error classification of
setupPythonEnvironment. -/
def strHasSub (pat : Chars) : Chars → Bool
  | [] => strStarts [] pat
  | c :: rest => strStarts (c :: rest) pat || strHasSub pat rest

/-- errorMessage.includes(pat) over Lean strings. -/
def strContains (s pat : String) : Bool :=
  strHasSub (str pat) (str s)

/-- Configuration read by setupPythonEnvironment: the extension install
path and the configured interpreter command (the settings value, or the
fallback python). -/
structure SetupCfg where
  extensionPath : String
  pythonCommand : String
deriving DecidableEq

/-- path.join(context.extensionPath, "agent"). -/
def agentPath (cfg : SetupCfg) : String := cfg.extensionPath ++ "/agent"

/-- path.join(agentPath, ".venv"). -/
def venvPath (cfg : SetupCfg) : String := agentPath cfg ++ "/.venv"

/-- path.join(agentPath, "requirements.txt"). -/
def requirementsPath (cfg : SetupCfg) : String := agentPath cfg ++ "/requirements.txt"

/-- path.join(venvPath, "bin", "python"), the probe target and the
returned interpreter path. -/
def pythonExecutable (cfg : SetupCfg) : String := venvPath cfg ++ "/bin/python"

/-- path.join(venvPath, "bin", "pip"). -/
def pipExecutable (cfg : SetupCfg) : String := venvPath cfg ++ "/bin/pip"

/-- path.join(agentPath, "run_agent.py"). -/
def scriptPath (cfg : SetupCfg) : String := agentPath cfg ++ "/run_agent.py"

/-- The rejection message built by runCommand when a sub command exits
with a non zero code (source line 87). -/
def commandFailedMessage (code : Int) (cmd : String) (args : List String) : String :=
  "Command failed with code " ++ toString code ++ ": " ++ cmd ++ " " ++
    String.intercalate " " args

/-- The catch block of setupPythonEnvironment (source lines 104 to 117):
the user facing diagnosis is chosen by substring tests on the error
message, in the order python, venv, requirements.txt. -/
def classifySetupError (pythonCommand errorMessage : String) : String :=
  if strContains errorMessage "python" then
    "Python not found. Please check your Python path in settings. Current path: \"" ++
      pythonCommand ++ "\""
  else if strContains errorMessage "venv" then
    "Failed to create virtual environment. Ensure Python has venv module installed."
  else if strContains errorMessage "requirements.txt" then
    "Failed to install dependencies. Check if requirements.txt exists and contains valid packages."
  else
    "Failed to set up Python environment: " ++ errorMessage

/-- Environment of one provisioner call: whether the probed interpreter
of the isolated environment already exists on disk, and the exit codes
the two sub commands would report when run. -/
structure EnvWorld where
  venvExists : Bool
  venvCreateExit : Int
  pipExit : Int
deriving DecidableEq

/-- Model of setupPythonEnvironment (source lines 66 to 121): probe the
isolated interpreter, create the environment only when the probe fails,
then always run the dependency install; on a failing sub command the
classified diagnosis is shown and the original error message is
rethrown.  The result records the actions in order, the environment
after the call, and either the interpreter path or the rethrown error
message. -/
def setupPythonEnvironment (cfg : SetupCfg) (w : EnvWorld) :
    List Act × EnvWorld × Except String String :=
  let pipStep : List Act → EnvWorld → List Act × EnvWorld × Except String String :=
    fun acts w1 =>
      let acts2 := acts ++ [Act.progressReport "Installing dependencies...",
                            Act.spawnProcess Cmd.pipInstall]
      if w1.pipExit = 0 then
        (acts2 ++ [Act.progressReport "Environment is ready."], w1,
         Except.ok (pythonExecutable cfg))
      else
        let em := commandFailedMessage w1.pipExit (pipExecutable cfg)
          ["install", "-r", requirementsPath cfg]
        (acts2 ++ [Act.showError (classifySetupError cfg.pythonCommand em)], w1,
         Except.error em)
  let acts0 := [Act.progressReport "Setting up Python environment..."]
  if w.venvExists then pipStep acts0 w
  else
    let acts1 := acts0 ++ [Act.progressReport "Creating virtual environment...",
                           Act.spawnProcess Cmd.venvCreate]
    if w.venvCreateExit = 0 then pipStep acts1 { w with venvExists := true }
    else
      let em := commandFailedMessage w.venvCreateExit cfg.pythonCommand ["-m", "venv", ".venv"]
      (acts1 ++ [Act.showError (classifySetupError cfg.pythonCommand em)], w, Except.error em)

/-- A number of successive provisioner calls, accumulating the action
trace and threading the on disk environment state. -/
def setupIter (cfg : SetupCfg) : EnvWorld → Nat → List Act × EnvWorld
  | w, 0 => ([], w)
  | w, n + 1 =>
    let r := setupPythonEnvironment cfg w
    let rest := setupIter cfg r.2.1 n
    (r.1 ++ rest.1, rest.2)

/-- Truthiness of an optional configuration string: a missing value and
the empty string are both falsy, exactly the test !value performs on the
result of config.get. -/
def truthy : Option String → Bool
  | none => false
  | some s => !(s == "")

/-- The ConfigurationError message thrown when the credentials are
missing (source line 160). -/
def credMsg : String :=
  "Please configure your IBM Watsonx.ai API Key and Project ID in VS Code settings."

/-- Default endpoint applied when the ibmUrl setting is falsy. -/
def defaultIbmUrl : String := "https://us-south.ml.cloud.ibm.com"

/-- Inputs of one runAgent invocation: the provisioner configuration,
the project path, the four form fields, and the three credential or
endpoint settings as optionally present strings. -/
structure AgentCfg where
  setup : SetupCfg
  projectPath : String
  persona : String
  painPoints : String
  useCases : String
  successMetrics : String
  ibmApiKey : Option String
  ibmUrl : Option String
  ibmProjectId : Option String
deriving DecidableEq

/-- Argument vector passed to the agent process (source lines 136 to
143). -/
def agentArgs (cfg : AgentCfg) : List String :=
  [scriptPath cfg.setup,
   "--project-path", cfg.projectPath,
   "--persona", cfg.persona,
   "--pain-points", cfg.painPoints,
   "--use-cases", cfg.useCases,
   "--success-metrics", cfg.successMetrics]

/-- config.get(ibmUrl) with the default applied on a falsy value. -/
def resolvedIbmUrl (cfg : AgentCfg) : String :=
  if truthy cfg.ibmUrl then cfg.ibmUrl.getD defaultIbmUrl else defaultIbmUrl

/-- Environment overlay merged onto the inherited environment for the
agent process (source lines 167 to 173). -/
def agentEnvOverlay (cfg : AgentCfg) : List (String × String) :=
  [("IBM_API_KEY", cfg.ibmApiKey.getD ""),
   ("IBM_URL", resolvedIbmUrl cfg),
   ("IBM_PROJECT_ID", cfg.ibmProjectId.getD ""),
   ("PYTHONIOENCODING", "utf-8")]

/-- How the part of runAgent before process supervision ends: the
provisioner failed (rethrown as a setup failure), the credential
validation threw its ConfigurationError, or the agent process was
spawned with the given command, arguments and environment overlay. -/
inductive PreOutcome where
  | setupFailed : String → PreOutcome
  | configError : String → PreOutcome
  | jobSpawned : String → List String → List (String × String) → PreOutcome
deriving DecidableEq

/-- Model of runAgent up to the spawn of the agent process (source lines
131 to 175 together with the outer catch of lines 262 to 267): first the
provisioner runs, then the output channel is prepared, then the
credential validation happens, and only then is the agent process
spawned.  Every thrown error is caught by the outer catch, which logs it
and shows the generic failure notification. -/
def runAgentPre (cfg : AgentCfg) (w : EnvWorld) : List Act × EnvWorld × PreOutcome :=
  let s := setupPythonEnvironment cfg.setup w
  match s.2.2 with
  | Except.error m =>
      (s.1 ++ [Act.logLine ("[SETUP ERROR] " ++ m),
               Act.showError "Failed to run the agent. Check the output panel for details."],
       s.2.1, PreOutcome.setupFailed m)
  | Except.ok pyPath =>
      let acts := s.1 ++ [Act.clearLog,
        Act.logLine ">>> Starting AI Agent with IBM Watsonx.ai...",
        Act.logLine (">>> Project Path: " ++ cfg.projectPath),
        Act.logLine "---------------------------------------------------\n"]
      if !(truthy cfg.ibmApiKey) || !(truthy cfg.ibmProjectId) then
        (acts ++ [Act.showError credMsg,
                  Act.logLine ("[ERROR] " ++ credMsg),
                  Act.logLine ("[SETUP ERROR] " ++ credMsg),
                  Act.showError "Failed to run the agent. Check the output panel for details."],
         s.2.1, PreOutcome.configError credMsg)
      else
        (acts ++ [Act.spawnProcess Cmd.agentJob],
         s.2.1, PreOutcome.jobSpawned pyPath (agentArgs cfg) (agentEnvOverlay cfg))

/-- Concrete JSON.parse oracle used for concrete inputs below; on every
character list it is applied to in this file it returns exactly what
JSON.parse returns on the corresponding JavaScript string (the three
listed records parse to the listed objects, and the remaining inputs
fed to it are not valid JSON, so JSON.parse throws on them). -/
def parseEx (l : Chars) : Option JsValue :=
  if l = str "\x7b\"type\":\"progress\",\"phase\":1,\"message\":\"scanning\"\x7d" then
    some (JsValue.jobj [(str "type", JsValue.jstr (str "progress")),
                        (str "phase", JsValue.jnum 1),
                        (str "message", JsValue.jstr (str "scanning"))])
  else if l = str "\x7b\"type\":\"done\"\x7d" then
    some (JsValue.jobj [(str "type", JsValue.jstr (str "done"))])
  else if l = str "\x7b\"type\":\"note\"\x7d" then
    some (JsValue.jobj [(str "type", JsValue.jstr (str "note"))])
  else none

/-- JSON.parse oracle for chunks made only of free form text: none of
the lines fed to it in this file is valid JSON. -/
def parseNone : Chars → Option JsValue := fun _ => none

lemma spawnCount_append (c : Cmd) (a b : List Act) :
    spawnCount c (a ++ b) = spawnCount c a + spawnCount c b := by
  induction a with
  | nil => simp [spawnCount]
  | cons x rest ih => cases x <;> simp [spawnCount, ih, Nat.add_assoc]

/-- Claim C3 (confirmed): for every exit code value, including 0 and the
null code of a signal kill, the close handler classifies the outcome as
Cancelled when cancellation was requested before the exit event fired;
the exit code branch of the handler is never reached. -/
theorem cancelled_outcome_precedence (code : Option Int) :
    classifyOutcome true code = JobOutcome.Cancelled := rfl

/-- Claim C2 (confirmed): without cancellation the close handler is
total and exact over integer exit codes: 0 succeeds, 1 to 4 fail with
the fixed phase messages, and every other integer fails with the
generic unexpected error code message carrying that code. -/
theorem exit_code_mapping :
    classifyOutcome false (some 0) = JobOutcome.Succeeded ∧
    classifyOutcome false (some 1) = JobOutcome.Failed (some 1)
      "Agent encountered a general error. Check the output panel for details." ∧
    classifyOutcome false (some 2) = JobOutcome.Failed (some 2)
      "Agent failed during Phase 1 (Discovery & Strategy). Check the output panel for details." ∧
    classifyOutcome false (some 3) = JobOutcome.Failed (some 3)
      "Agent failed during Phase 2 (Execution & Refactoring). Check the output panel for details." ∧
    classifyOutcome false (some 4) = JobOutcome.Failed (some 4)
      "Agent failed during Phase 3 (Documentation & Verification). Check the output panel for details." ∧
    ∀ n : Int, n ≠ 0 → n ≠ 1 → n ≠ 2 → n ≠ 3 → n ≠ 4 →
      classifyOutcome false (some n) =
        JobOutcome.Failed (some n)
          ("Agent process failed with unexpected error code " ++ toString n ++
            ". Check the output panel for details.") := by
  refine ⟨rfl, rfl, rfl, rfl, rfl, ?_⟩
  intro n h0 h1 h2 h3 h4
  simp [classifyOutcome, failMessage, codeText, Option.some.injEq, h0, h1, h2, h3, h4]

theorem exit_code_mapping_witness :
    (17 : Int) ≠ 0 ∧
    classifyOutcome false (some 17) =
      JobOutcome.Failed (some 17)
        ("Agent process failed with unexpected error code " ++ toString (17 : Int) ++
          ". Check the output panel for details.") :=
  ⟨by decide,
   exit_code_mapping.2.2.2.2.2 17 (by decide) (by decide) (by decide) (by decide) (by decide)⟩

/-- Claim C10 (confirmed): a process terminated without a numeric exit
code (the close event delivers null) and without cancellation is
classified through the generic unexpected error code branch, carrying
the null code; it is neither Succeeded nor Cancelled nor any of the
phase specific classifications. -/
theorem null_exit_code_generic_failure :
    classifyOutcome false none =
      JobOutcome.Failed none
        "Agent process failed with unexpected error code null. Check the output panel for details." ∧
    classifyOutcome false none ≠ JobOutcome.Succeeded ∧
    classifyOutcome false none ≠ JobOutcome.Cancelled := by
  refine ⟨rfl, by decide, by decide⟩

/-- Claim C4, counterexample: two stderr chunks already trigger two
user visible error notifications, so the notifications are not limited
to one per invocation. -/
theorem stderr_notification_per_chunk_counterexample :
    ¬ showErrorCount (stderrActions ["first error chunk", "second error chunk"]) ≤ 1 := by
  decide

/-- Claim C4 (corrected): every stderr chunk is appended to the error
level log, and every stderr chunk triggers its own user visible error
notification — the notification count equals the chunk count, it is not
capped at one per invocation. -/
theorem stderr_chunk_logging_and_notifications (chunks : List String) :
    showErrorCount (stderrActions chunks) = chunks.length ∧
    logLineCount (stderrActions chunks) = chunks.length := by
  induction chunks with
  | nil => exact ⟨rfl, rfl⟩
  | cons c rest ih =>
    simp [stderrActions, stderrChunkActions, showErrorCount, logLineCount, ih.1, ih.2]

/-- Claim C5 (code bug): when the environment already exists and the
dependency install command fails (pip exits 1), the rejection message
embeds the pip path, which contains the substring venv; the diagnosis
chain therefore reports the environment creation message, never the
requirements.txt message, misattributing a dependency sync failure to
environment creation. -/
theorem pip_failure_misdiagnosed_as_venv :
    (setupPythonEnvironment ⟨"/ext", "python"⟩ ⟨true, 0, 1⟩).2.2 =
      Except.error
        "Command failed with code 1: /ext/agent/.venv/bin/pip install -r /ext/agent/requirements.txt" ∧
    (setupPythonEnvironment ⟨"/ext", "python"⟩ ⟨true, 0, 1⟩).1.contains
      (Act.showError
        "Failed to create virtual environment. Ensure Python has venv module installed.") = true ∧
    classifySetupError "python"
        "Command failed with code 1: /ext/agent/.venv/bin/pip install -r /ext/agent/requirements.txt" ≠
      "Failed to install dependencies. Check if requirements.txt exists and contains valid packages." := by
  refine ⟨rfl, by decide, by decide⟩

lemma setup_exists_step (cfg : SetupCfg) (w : EnvWorld) (h : w.venvExists = true) :
    (setupPythonEnvironment cfg w).2.1 = w ∧
    spawnCount Cmd.venvCreate (setupPythonEnvironment cfg w).1 = 0 ∧
    spawnCount Cmd.pipInstall (setupPythonEnvironment cfg w).1 = 1 := by
  by_cases hp : w.pipExit = 0 <;>
    simp [setupPythonEnvironment, h, hp, spawnCount]

/-- Claim C7 (confirmed): when the isolated environment already exists,
any number of successive provisioner calls spawns the environment
creation command zero times, while the dependency install command is
spawned once per call, unconditionally. -/
theorem provisioner_creation_idempotent (cfg : SetupCfg) (w : EnvWorld) (n : Nat)
    (h : w.venvExists = true) :
    spawnCount Cmd.venvCreate (setupIter cfg w n).1 = 0 ∧
    spawnCount Cmd.pipInstall (setupIter cfg w n).1 = n := by
  induction n generalizing w with
  | zero => exact ⟨rfl, rfl⟩
  | succ k ih =>
    obtain ⟨hw, hv, hpi⟩ := setup_exists_step cfg w h
    have hrest := ih ((setupPythonEnvironment cfg w).2.1) (by rw [hw]; exact h)
    simp [setupIter, spawnCount_append, hv, hpi, hrest.1, hrest.2, Nat.add_comm]

theorem provisioner_creation_idempotent_witness :
    (EnvWorld.mk true 0 0).venvExists = true ∧
    spawnCount Cmd.venvCreate (setupIter ⟨"/ext", "python"⟩ ⟨true, 0, 0⟩ 2).1 = 0 ∧
    spawnCount Cmd.pipInstall (setupIter ⟨"/ext", "python"⟩ ⟨true, 0, 0⟩ 2).1 = 2 :=
  ⟨rfl, provisioner_creation_idempotent ⟨"/ext", "python"⟩ ⟨true, 0, 0⟩ 2 rfl⟩

lemma setup_ok_of (cfg : SetupCfg) (w : EnvWorld)
    (hv : w.venvExists = true ∨ w.venvCreateExit = 0) (hp : w.pipExit = 0) :
    (setupPythonEnvironment cfg w).2.2 = Except.ok (pythonExecutable cfg) ∧
    spawnCount Cmd.pipInstall (setupPythonEnvironment cfg w).1 = 1 ∧
    spawnCount Cmd.agentJob (setupPythonEnvironment cfg w).1 = 0 := by
  by_cases hw : w.venvExists = true
  · simp [setupPythonEnvironment, hw, hp, spawnCount]
  · have hc : w.venvCreateExit = 0 := by
      rcases hv with h | h
      · exact absurd h hw
      · exact h
    have hw2 : w.venvExists = false := by
      cases hx : w.venvExists
      · rfl
      · exact absurd hx hw
    simp [setupPythonEnvironment, hw2, hc, hp, spawnCount]

/-- Claim C1 (corrected): with a missing or empty API key or project
identifier, and provisioning able to succeed, the invocation fails with
the ConfigurationError message and the agent job process is never
spawned (its spawn count is zero) — but the failure happens only after
provisioning: the dependency install command has already been spawned
once when the credential validation throws. -/
theorem credentials_checked_after_provisioning (cfg : AgentCfg) (w : EnvWorld)
    (hmiss : truthy cfg.ibmApiKey = false ∨ truthy cfg.ibmProjectId = false)
    (hv : w.venvExists = true ∨ w.venvCreateExit = 0) (hp : w.pipExit = 0) :
    (runAgentPre cfg w).2.2 = PreOutcome.configError credMsg ∧
    spawnCount Cmd.agentJob (runAgentPre cfg w).1 = 0 ∧
    spawnCount Cmd.pipInstall (runAgentPre cfg w).1 = 1 := by
  obtain ⟨hok, hpip, hjob⟩ := setup_ok_of cfg.setup w hv hp
  rcases hmiss with hm | hm <;>
    simp [runAgentPre, hok, hm, spawnCount_append, spawnCount, hpip, hjob]

theorem credentials_checked_after_provisioning_witness :
    truthy (none : Option String) = false ∧
    ((runAgentPre
        ⟨⟨"/ext", "python"⟩, "/proj", "Developer", "p", "u", "s", none, none, some "pid"⟩
        ⟨true, 0, 0⟩).2.2 = PreOutcome.configError credMsg ∧
      spawnCount Cmd.agentJob
        (runAgentPre
          ⟨⟨"/ext", "python"⟩, "/proj", "Developer", "p", "u", "s", none, none, some "pid"⟩
          ⟨true, 0, 0⟩).1 = 0 ∧
      spawnCount Cmd.pipInstall
        (runAgentPre
          ⟨⟨"/ext", "python"⟩, "/proj", "Developer", "p", "u", "s", none, none, some "pid"⟩
          ⟨true, 0, 0⟩).1 = 1) :=
  ⟨rfl,
   credentials_checked_after_provisioning
     ⟨⟨"/ext", "python"⟩, "/proj", "Developer", "p", "u", "s", none, none, some "pid"⟩
     ⟨true, 0, 0⟩ (Or.inl rfl) (Or.inl rfl) rfl⟩

/-- Claim C1, counterexample: with the API key missing, the invocation
does fail with the ConfigurationError, but a provisioning side effect
has already been performed before the failure — the dependency install
process was spawned — so the failure is not prior to every process
spawn and provisioning side effect. -/
theorem credentials_not_failfast_counterexample :
    (runAgentPre
        ⟨⟨"/ext", "python"⟩, "/proj", "Developer", "pains", "uses", "metric", none, none,
          some "pid"⟩
        ⟨true, 0, 0⟩).2.2 = PreOutcome.configError credMsg ∧
    ¬ spawnCount Cmd.pipInstall
        (runAgentPre
          ⟨⟨"/ext", "python"⟩, "/proj", "Developer", "pains", "uses", "metric", none, none,
            some "pid"⟩
          ⟨true, 0, 0⟩).1 = 0 := by
  refine ⟨rfl, by decide⟩

lemma countPhase_append (a b : List ProgressEvent) :
    countPhase (a ++ b) = countPhase a + countPhase b := by
  induction a with
  | nil => simp [countPhase]
  | cons x rest ih => cases x <;> simp [countPhase, ih, Nat.add_right_comm]

lemma countPhase_lastLineEvent (chunk : Chars) : countPhase (lastLineEvent chunk) = 0 := by
  unfold lastLineEvent
  rcases (jsSplitNl (jsTrim chunk)).getLast? with _ | l
  · rfl
  · by_cases h : l = [] <;> simp [h, countPhase]

lemma lineStep_blank (parse : Chars → Option JsValue) (l : Chars) (h : jsTrim l = []) :
    lineStep parse l = LineStep.skip := by
  simp [lineStep, h]

lemma lineStep_thrown_of_parse_fail (parse : Chars → Option JsValue) (l : Chars)
    (hb : jsTrim l ≠ []) (hp : parse l = none) :
    lineStep parse l = LineStep.thrown := by
  simp [lineStep, hb, hp]

lemma lineStep_phase_of_record (parse : Chars → Option JsValue) (l : Chars) (v : JsValue)
    (hb : jsTrim l ≠ []) (hp : parse l = some v)
    (ht : getField v (str "type") = Except.ok (some (JsValue.jstr (str "progress")))) :
    lineStep parse l =
      LineStep.phase (jsDisplay (fieldOf v (str "phase"))) (jsDisplay (fieldOf v (str "message"))) := by
  simp [lineStep, hb, hp, ht]

lemma lineStep_skip_of_nonprogress (parse : Chars → Option JsValue) (l : Chars)
    (v : JsValue) (t : Option JsValue)
    (hp : parse l = some v) (ht : getField v (str "type") = Except.ok t)
    (hnp : ∀ s, t = some (JsValue.jstr s) → s ≠ str "progress") :
    lineStep parse l = LineStep.skip := by
  by_cases hb : jsTrim l = []
  · simp [lineStep, hb]
  · cases t with
    | none => simp [lineStep, hb, hp, ht]
    | some v' =>
      cases v' with
      | jstr s =>
        have hs := hnp s rfl
        simp [lineStep, hb, hp, ht, hs]
      | jnull => simp [lineStep, hb, hp, ht]
      | jbool b => simp [lineStep, hb, hp, ht]
      | jnum n => simp [lineStep, hb, hp, ht]
      | jobj fs => simp [lineStep, hb, hp, ht]

lemma tryBody_all_skip (parse : Chars → Option JsValue) (lines : List Chars)
    (h : ∀ l ∈ lines, lineStep parse l = LineStep.skip) :
    tryBody parse lines = ([], false) := by
  induction lines with
  | nil => rfl
  | cons l rest ih =>
    have hl := h l (by simp)
    have hr := ih (fun x hx => h x (by simp [hx]))
    simp [tryBody, hl, hr]

lemma tryBody_fail_before_events (parse : Chars → Option JsValue) (lines : List Chars)
    (hall : ∀ l ∈ lines, jsTrim l ≠ [] → parse l = none)
    (hsome : ∃ l ∈ lines, jsTrim l ≠ []) :
    tryBody parse lines = ([], true) := by
  induction lines with
  | nil =>
    rcases hsome with ⟨l, hl, _⟩
    exact absurd hl (List.not_mem_nil l)
  | cons l rest ih =>
    by_cases hb : jsTrim l = []
    · have hl := lineStep_blank parse l hb
      have hrest : ∃ x ∈ rest, jsTrim x ≠ [] := by
        rcases hsome with ⟨x, hx, hxc⟩
        rcases List.mem_cons.mp hx with hx1 | hx2
        · exact absurd (hx1 ▸ hb) hxc
        · exact ⟨x, hx2, hxc⟩
      have hr := ih (fun x hx hxc => hall x (by simp [hx]) hxc) hrest
      simp [tryBody, hl, hr]
    · have hp := hall l (by simp) hb
      have hl := lineStep_thrown_of_parse_fail parse l hb hp
      simp [tryBody, hl]

lemma jsSplitNl_ne_nil (s : Chars) : jsSplitNl s ≠ [] := by
  induction s with
  | nil => simp [jsSplitNl]
  | cons c rest ih =>
    by_cases hc : c = '\n'
    · simp [jsSplitNl, hc]
    · simp only [jsSplitNl, if_neg hc]
      rcases h : jsSplitNl rest with _ | ⟨l, ls⟩ <;> simp

lemma dropWhile_head_false (p : Char → Bool) (l : Chars) :
    l.dropWhile p = [] ∨ ∃ c r, l.dropWhile p = c :: r ∧ p c = false := by
  induction l with
  | nil => left; rfl
  | cons a rest ih =>
    by_cases h : p a
    · simpa [List.dropWhile_cons, h] using ih
    · right
      exact ⟨a, rest, by simp [List.dropWhile_cons, h], by simp [h]⟩

lemma jsTrim_last_not_ws (s : Chars) :
    jsTrim s = [] ∨ ∃ c, (jsTrim s).getLast? = some c ∧ jsIsWs c = false := by
  unfold jsTrim
  rcases dropWhile_head_false jsIsWs ((s.dropWhile jsIsWs).reverse) with h | ⟨c, r, h, hc⟩
  · left; simp [h]
  · right
    refine ⟨c, ?_, hc⟩
    rw [h, List.getLast?_reverse]
    rfl

lemma jsSplitNl_cons (c : Char) (s : Chars) :
    jsSplitNl (c :: s) =
      if c = '\n' then [] :: jsSplitNl s
      else
        match jsSplitNl s with
        | [] => [[c]]
        | l :: ls => (c :: l) :: ls := rfl

lemma jsSplitNl_append_last (c : Char) (hc : c ≠ '\n') :
    ∀ s : Chars, ∃ t, (jsSplitNl (s ++ [c])).getLast? = some t ∧ t ≠ [] := by
  intro s
  induction s with
  | nil =>
    refine ⟨[c], ?_, by simp⟩
    simp [jsSplitNl, hc]
  | cons a rest ih =>
    obtain ⟨t, ht, htne⟩ := ih
    rw [List.cons_append]
    rcases h : jsSplitNl (rest ++ [c]) with _ | ⟨l, ls⟩
    · exact absurd h (jsSplitNl_ne_nil (rest ++ [c]))
    · rw [h] at ht
      by_cases ha : a = '\n'
      · refine ⟨t, ?_, htne⟩
        rw [jsSplitNl_cons, if_pos ha, h, List.getLast?_cons_cons]
        exact ht
      · cases ls with
        | nil =>
          refine ⟨a :: l, ?_, by simp⟩
          have e : jsSplitNl (a :: (rest ++ [c])) = [a :: l] := by
            rw [jsSplitNl_cons, if_neg ha, h]
          rw [e]
          rfl
        | cons y ys =>
          refine ⟨t, ?_, htne⟩
          have e : jsSplitNl (a :: (rest ++ [c])) = (a :: l) :: y :: ys := by
            rw [jsSplitNl_cons, if_neg ha, h]
          rw [e, List.getLast?_cons_cons]
          rw [List.getLast?_cons_cons] at ht
          exact ht

lemma jsSplitNl_last_ne_nil (s : Chars) (hs : s ≠ [])
    (h : ∀ c, s.getLast? = some c → c ≠ '\n') :
    ∃ t, (jsSplitNl s).getLast? = some t ∧ t ≠ [] := by
  have hd : s.dropLast ++ [s.getLast hs] = s := List.dropLast_append_getLast hs
  have hlast : s.getLast? = some (s.getLast hs) := List.getLast?_eq_getLast_of_ne_nil hs
  have hcn : s.getLast hs ≠ '\n' := h (s.getLast hs) hlast
  have hres := jsSplitNl_append_last (s.getLast hs) hcn s.dropLast
  rwa [hd] at hres

/-- Claim C9 (corrected): a chunk in which no non blank line parses, and
which has at least one non blank line, produces exactly one Raw event —
the fallback fires once per chunk, not once per unparsable line — and
its message is the last line of the whitespace trimmed chunk (the
element popped from output.trim().split of the newline). -/
theorem raw_fallback_once_per_chunk (parse : Chars → Option JsValue) (chunk : Chars)
    (hall : ∀ l ∈ jsSplitNl (jsTrim chunk), jsTrim l ≠ [] → parse l = none)
    (hsome : ∃ l ∈ jsSplitNl (jsTrim chunk), jsTrim l ≠ []) :
    ∃ t, (jsSplitNl (jsTrim chunk)).getLast? = some t ∧ t ≠ [] ∧
      processChunk parse chunk = [ProgressEvent.Raw t] := by
  have hne : jsTrim chunk ≠ [] := by
    intro h0
    rcases hsome with ⟨l, hl, hc⟩
    rw [h0] at hl
    simp [jsSplitNl] at hl
    rw [hl] at hc
    exact hc rfl
  rcases jsTrim_last_not_ws chunk with h0 | ⟨c, hc, hcw⟩
  · exact absurd h0 hne
  · have hcn : ∀ d, (jsTrim chunk).getLast? = some d → d ≠ '\n' := by
      intro d hd hdn
      rw [hc] at hd
      have hcd : c = d := by injection hd
      rw [hcd, hdn] at hcw
      exact absurd hcw (by decide)
    obtain ⟨t, ht, htne⟩ := jsSplitNl_last_ne_nil (jsTrim chunk) hne hcn
    have htb := tryBody_fail_before_events parse _ hall hsome
    refine ⟨t, ht, htne, ?_⟩
    simp [processChunk, htb, lastLineEvent, ht, htne]

theorem raw_fallback_once_per_chunk_witness :
    (∃ l ∈ jsSplitNl (jsTrim (str "log line one\nlog line two")), jsTrim l ≠ []) ∧
    (∃ t, (jsSplitNl (jsTrim (str "log line one\nlog line two"))).getLast? = some t ∧
      t ≠ [] ∧
      processChunk parseNone (str "log line one\nlog line two") = [ProgressEvent.Raw t]) :=
  ⟨by decide,
   raw_fallback_once_per_chunk parseNone (str "log line one\nlog line two")
     (fun _ _ _ => rfl) (by decide)⟩

/-- Claim C9, counterexample: the chunk consisting of the character x,
a space, and a newline has no parseable record; its only non empty line
is x followed by a space, yet the Raw event message is the single
character x, because the fallback pops the last line of the trimmed
chunk rather than the verbatim last non empty line of the chunk. -/
theorem raw_message_not_last_line_counterexample :
    processChunk parseNone (str "x \n") = [ProgressEvent.Raw (str "x")] ∧
    lastNonEmptyLine (str "x \n") = some (str "x ") ∧
    str "x" ≠ str "x " := by
  refine ⟨by decide, by decide, by decide⟩

/-- Claim C8 (confirmed): the stdout handler never throws, and a chunk
whose trimmed lines are one well formed progress record followed by
three free form lines (the first of which fails to parse) yields
exactly one Phase event — the free form lines add none. -/
theorem progress_record_single_phase_event (parse : Chars → Option JsValue)
    (chunk r l1 l2 l3 : Chars) (v : JsValue)
    (hlines : jsSplitNl (jsTrim chunk) = [r, l1, l2, l3])
    (hr : jsTrim r ≠ []) (hpr : parse r = some v)
    (hty : getField v (str "type") = Except.ok (some (JsValue.jstr (str "progress"))))
    (hl1 : jsTrim l1 ≠ []) (hp1 : parse l1 = none) :
    countPhase (processChunk parse chunk) = 1 := by
  have s1 := lineStep_phase_of_record parse r v hr hpr hty
  have s2 := lineStep_thrown_of_parse_fail parse l1 hl1 hp1
  have htb : tryBody parse [r, l1, l2, l3] =
      ([ProgressEvent.Phase (jsDisplay (fieldOf v (str "phase")))
          (jsDisplay (fieldOf v (str "message")))], true) := by
    simp [tryBody, s1, s2]
  simp [processChunk, hlines, htb, countPhase_append, countPhase, countPhase_lastLineEvent]

theorem progress_record_single_phase_event_witness :
    countPhase (processChunk parseEx
      (str "\x7b\"type\":\"progress\",\"phase\":1,\"message\":\"scanning\"\x7d\nalpha\nbeta\ngamma")) = 1 :=
  progress_record_single_phase_event parseEx
    (str "\x7b\"type\":\"progress\",\"phase\":1,\"message\":\"scanning\"\x7d\nalpha\nbeta\ngamma")
    (str "\x7b\"type\":\"progress\",\"phase\":1,\"message\":\"scanning\"\x7d")
    (str "alpha") (str "beta") (str "gamma")
    (JsValue.jobj [(str "type", JsValue.jstr (str "progress")),
                   (str "phase", JsValue.jnum 1),
                   (str "message", JsValue.jstr (str "scanning"))])
    (by decide) (by decide) (by rfl) (by rfl) (by decide) (by rfl)

/-- Claim C6 (corrected): a chunk whose non blank lines all parse
successfully to records whose declared kind is not the string progress
yields no events at all — neither Phase nor Raw.  The raw line fallback
runs only when handling a line throws; a well formed record of unknown
kind is silently skipped. -/
theorem nonprogress_record_yields_nothing (parse : Chars → Option JsValue) (chunk : Chars)
    (h : ∀ l ∈ jsSplitNl (jsTrim chunk), jsTrim l ≠ [] →
      ∃ v t, parse l = some v ∧ getField v (str "type") = Except.ok t ∧
        ∀ s, t = some (JsValue.jstr s) → s ≠ str "progress") :
    processChunk parse chunk = [] := by
  have hskips : ∀ l ∈ jsSplitNl (jsTrim chunk), lineStep parse l = LineStep.skip := by
    intro l hl
    by_cases hb : jsTrim l = []
    · exact lineStep_blank parse l hb
    · obtain ⟨v, t, hp, ht, hnp⟩ := h l hl hb
      exact lineStep_skip_of_nonprogress parse l v t hp ht hnp
  have htb := tryBody_all_skip parse _ hskips
  simp [processChunk, htb]

theorem nonprogress_record_yields_nothing_witness :
    processChunk parseEx (str "\x7b\"type\":\"note\"\x7d") = [] :=
  nonprogress_record_yields_nothing parseEx (str "\x7b\"type\":\"note\"\x7d") (by
    intro l hl hb
    have hls : jsSplitNl (jsTrim (str "\x7b\"type\":\"note\"\x7d")) =
        [str "\x7b\"type\":\"note\"\x7d"] := by decide
    rw [hls] at hl
    simp at hl
    rw [hl]
    refine ⟨JsValue.jobj [(str "type", JsValue.jstr (str "note"))],
      some (JsValue.jstr (str "note")), rfl, rfl, ?_⟩
    intro s hs hsp
    have h1 : JsValue.jstr (str "note") = JsValue.jstr s := by injection hs
    have h2 : str "note" = s := by injection h1
    rw [← h2] at hsp
    exact absurd hsp (by decide))

/-- Claim C6, counterexample: a chunk made of one line that parses to a
record of kind done (not progress) yields no event at all — in
particular no Raw event, contradicting the degradation to the raw line
fallback for unknown record shapes. -/
theorem unknown_record_no_fallback_counterexample :
    processChunk parseEx (str "\x7b\"type\":\"done\"\x7d") = [] ∧
    countRaw (processChunk parseEx (str "\x7b\"type\":\"done\"\x7d")) = 0 := by
  refine ⟨by decide, by decide⟩
